import Mathlib

/-!
Verification of the subnet-calculator program (`src/main.rs`).

The program keeps an `App` state with two text buffers, an input mode and
four optional results.  Four pure functions compute the network address,
broadcast address, subnet count and host count from an IPv4 address and a
subnet mask; `App.calculate_subnet` parses the two buffers and updates the
four results only when both parses succeed; a key handler mutates the state
one keystroke at a time.

Machine integers are modelled as `Nat` with explicit truncation where the
Rust code can wrap: octets are `u8` values (the validity predicate bounds
them below 256), `calculate_subnet_count` and `calculate_host_count` work
in unsigned 32-bit arithmetic, modelled with `% 2 ^ 32` and wrapping
subtraction.
-/

namespace SubnetCalc

/-- IPv4 address: four octets, as in `std::net::Ipv4Addr`.  Octets are `u8`
in Rust; here each is a `Nat`, bounded by the `Valid` predicate. -/
structure Ipv4Addr where
  o0 : Nat
  o1 : Nat
  o2 : Nat
  o3 : Nat
deriving DecidableEq, Repr

/-- All four octets fit in 8 bits, as `u8` guarantees in the source. -/
def Ipv4Addr.Valid (ip : Ipv4Addr) : Prop :=
  ip.o0 < 256 ∧ ip.o1 < 256 ∧ ip.o2 < 256 ∧ ip.o3 < 256

instance (ip : Ipv4Addr) : Decidable ip.Valid := by
  unfold Ipv4Addr.Valid; infer_instance

/-- `fn calculate_network_address`: octet-wise bitwise AND of address and
mask (`ip_octets[i] & subnet_mask_octets[i]`). -/
def calculate_network_address (ip subnet_mask : Ipv4Addr) : Ipv4Addr :=
  ⟨ip.o0 &&& subnet_mask.o0,
   ip.o1 &&& subnet_mask.o1,
   ip.o2 &&& subnet_mask.o2,
   ip.o3 &&& subnet_mask.o3⟩

/-- The 8-bit complement `!m & 0xff` of a `u8` mask octet (`!` on `u8` is
bitwise NOT inside 8 bits, i.e. XOR with `0xff`). -/
def inv8 (m : Nat) : Nat :=
  (m ^^^ 0xff) &&& 0xff

/-- `fn calculate_broadcast_address`: octet-wise OR of the address with the
inverted mask (`ip_octets[i] | (!subnet_mask_octets[i] & 0xff)`). -/
def calculate_broadcast_address (ip subnet_mask : Ipv4Addr) : Ipv4Addr :=
  ⟨ip.o0 ||| inv8 subnet_mask.o0,
   ip.o1 ||| inv8 subnet_mask.o1,
   ip.o2 ||| inv8 subnet_mask.o2,
   ip.o3 ||| inv8 subnet_mask.o3⟩

/-- `u8::count_ones`: the number of set bits of an 8-bit value (bits 0–7). -/
def countOnes8 (n : Nat) : Nat :=
  (List.range 8).foldl (fun acc i => acc + if n.testBit i then 1 else 0) 0

/-- Total count of 1-bits across the four mask octets
(`subnet_mask.octets().iter().map(|&b| b.count_ones()).sum::<u32>()`). -/
def onesCount (subnet_mask : Ipv4Addr) : Nat :=
  countOnes8 subnet_mask.o0 + countOnes8 subnet_mask.o1 +
    countOnes8 subnet_mask.o2 + countOnes8 subnet_mask.o3

/-- `fn calculate_subnet_count`: `2u32.pow(32 - ones_count)`, in unsigned
32-bit arithmetic (wrapping modelled by `% 2 ^ 32`). -/
def calculate_subnet_count (subnet_mask : Ipv4Addr) : Nat :=
  2 ^ (32 - onesCount subnet_mask) % 2 ^ 32

/-- `fn calculate_host_count`: `2u32.pow(32 - ones_count) - 2` with `u32`
wrapping subtraction (`x - 2` becomes `(x + 2 ^ 32 - 2) % 2 ^ 32`). -/
def calculate_host_count (subnet_mask : Ipv4Addr) : Nat :=
  (2 ^ (32 - onesCount subnet_mask) % 2 ^ 32 + (2 ^ 32 - 2)) % 2 ^ 32

/-- One dotted-decimal component, as accepted by Rust's `Ipv4Addr` parser:
a non-empty digit string, no leading zero (unless the component is exactly
"0"), value at most 255. -/
def parseOctet (cs : List Char) : Option Nat :=
  if cs = [] then none
  else if cs.all Char.isDigit then
    if 1 < cs.length ∧ cs.head? = some '0' then none
    else
      let n := cs.foldl (fun acc c => acc * 10 + (c.toNat - 48)) 0
      if n ≤ 255 then some n else none
  else none

/-- Split a character list at every dot, keeping empty groups, as the Rust
parser's group/separator alternation does. -/
def splitDots : List Char → List (List Char)
  | [] => [[]]
  | c :: cs =>
    if c = '.' then [] :: splitDots cs
    else
      match splitDots cs with
      | [] => [[c]]
      | g :: gs => (c :: g) :: gs

/-- `str::parse::<Ipv4Addr>`: exactly four dot-separated components, each a
valid octet; anything else fails. -/
def parseIpv4 (s : String) : Option Ipv4Addr :=
  match (splitDots s.data).map parseOctet with
  | [some a, some b, some c, some d] => some ⟨a, b, c, d⟩
  | _ => none

/-- `enum InputMode` from the source. -/
inductive InputMode where
  | IP
  | Subnet
  | NoTyping
deriving DecidableEq, Repr

/-- `struct App` from the source: two text buffers, the input mode, and the
four optional computed results. -/
structure App where
  ip_input : String
  subnet_input : String
  input_mode : InputMode
  network_address : Option Ipv4Addr
  broadcast_address : Option Ipv4Addr
  subnet_count : Option Nat
  host_count : Option Nat
deriving DecidableEq, Repr

/-- `App::new`: empty buffers, `NoTyping` mode, no results. -/
def App.new : App :=
  ⟨"", "", InputMode.NoTyping, none, none, none, none⟩

/-- `App::calculate_subnet`: if both buffers parse as IPv4 addresses, set
all four results; otherwise do nothing. -/
def App.calculate_subnet (app : App) : App :=
  match parseIpv4 app.ip_input, parseIpv4 app.subnet_input with
  | some ip, some subnet =>
    { app with
      network_address := some (calculate_network_address ip subnet)
      broadcast_address := some (calculate_broadcast_address ip subnet)
      subnet_count := some (calculate_subnet_count subnet)
      host_count := some (calculate_host_count subnet) }
  | _, _ => app

/-- `String::pop` as used in the source: drop the last character (no-op on
the empty string). -/
def stringPop (s : String) : String :=
  String.mk s.data.dropLast

/-- The key codes the event loop distinguishes; `other` stands for the
wildcard arm `_ => {}`. -/
inductive KeyCode where
  | char (c : Char)
  | backspace
  | enter
  | other
deriving DecidableEq, Repr

/-- The keystroke dispatch of the main loop: returns whether the loop
terminates (`q`) and the updated state. -/
def handleKey (app : App) (key : KeyCode) : Bool × App :=
  match key with
  | KeyCode.char 'q' => (true, app)
  | KeyCode.char 'i' => (false, { app with input_mode := InputMode.IP })
  | KeyCode.char 's' => (false, { app with input_mode := InputMode.Subnet })
  | KeyCode.char c =>
    (false,
      match app.input_mode with
      | InputMode.IP => { app with ip_input := app.ip_input.push c }
      | InputMode.Subnet => { app with subnet_input := app.subnet_input.push c }
      | InputMode.NoTyping => app)
  | KeyCode.backspace =>
    (false,
      match app.input_mode with
      | InputMode.IP => { app with ip_input := stringPop app.ip_input }
      | InputMode.Subnet => { app with subnet_input := stringPop app.subnet_input }
      | InputMode.NoTyping => app)
  | KeyCode.enter =>
    (false, { app.calculate_subnet with input_mode := InputMode.NoTyping })
  | KeyCode.other => (false, app)

/-! ## Helper lemmas on octet-level bit arithmetic -/

theorem testBit_255 (i : Nat) : Nat.testBit 255 i = decide (i < 8) := by
  have h : (255 : Nat) = 2 ^ 8 - 1 := by norm_num
  rw [h, Nat.testBit_two_pow_sub_one]

theorem octet_network_hostbits (a m : Nat) : (a &&& m) &&& inv8 m = 0 :=
  Nat.eq_of_testBit_eq fun i => by
    simp only [inv8, Nat.testBit_and, Nat.testBit_xor, testBit_255, Nat.zero_testBit]
    by_cases hi : i < 8 <;> cases ha : a.testBit i <;> cases hm : m.testBit i <;> simp [hi]

theorem octet_network_netbits (a m : Nat) : (a &&& m) &&& m = a &&& m := by
  rw [Nat.and_assoc, Nat.and_self]

theorem octet_broadcast_and (a m : Nat) : (a ||| inv8 m) &&& m = a &&& m :=
  Nat.eq_of_testBit_eq fun i => by
    simp only [inv8, Nat.testBit_and, Nat.testBit_or, Nat.testBit_xor, testBit_255]
    by_cases hi : i < 8 <;> cases ha : a.testBit i <;> cases hm : m.testBit i <;> simp [hi]

theorem octet_broadcast_or (a m : Nat) (ha : a < 256) (hm : m < 256) :
    (a ||| inv8 m) ||| m = 255 :=
  Nat.eq_of_testBit_eq fun i => by
    simp only [inv8, Nat.testBit_and, Nat.testBit_or, Nat.testBit_xor, testBit_255]
    by_cases hi : i < 8
    · simp [hi]
      cases hm' : m.testBit i <;> simp
    · have h8 : (256 : Nat) ≤ 2 ^ i := by
        calc (256 : Nat) = 2 ^ 8 := by norm_num
        _ ≤ 2 ^ i := Nat.pow_le_pow_right (by omega) (by omega)
      rw [Nat.testBit_lt_two_pow (by omega), Nat.testBit_lt_two_pow (by omega)]
      simp [hi]

theorem land_lor_absorb (a b : Nat) : a &&& (a ||| b) = a :=
  Nat.eq_of_testBit_eq fun i => by
    simp only [Nat.testBit_and, Nat.testBit_or]
    cases a.testBit i <;> simp

theorem le_lor_left (a b : Nat) : a ≤ a ||| b := by
  conv_lhs => rw [← land_lor_absorb a b]
  exact Nat.and_le_right

theorem octet_and_255 (a : Nat) (ha : a < 256) : a &&& 255 = a := by
  have h : (255 : Nat) = 2 ^ 8 - 1 := by norm_num
  rw [h]
  exact Nat.and_pow_two_sub_one_of_lt_two_pow (by norm_num at ha ⊢; omega)

/-! ## Sanity checks on concrete inputs -/

example : parseIpv4 "192.168.1.10" = some ⟨192, 168, 1, 10⟩ := by decide
example : parseIpv4 "192.168.1" = none := by decide
example : parseIpv4 "256.0.0.1" = none := by decide
example : parseIpv4 "01.2.3.4" = none := by decide
example : parseIpv4 "1.2.3.4.5" = none := by decide
example : parseIpv4 "1..2.3" = none := by decide
example : parseIpv4 "" = none := by decide
example : countOnes8 255 = 8 := by decide
example : calculate_subnet_count ⟨255, 255, 255, 0⟩ = 256 := by decide
example : calculate_host_count ⟨255, 255, 255, 252⟩ = 2 := by decide
example :
    calculate_network_address ⟨192, 168, 1, 10⟩ ⟨255, 255, 255, 0⟩ =
      ⟨192, 168, 1, 0⟩ := by decide
example :
    calculate_broadcast_address ⟨192, 168, 1, 10⟩ ⟨255, 255, 255, 0⟩ =
      ⟨192, 168, 1, 255⟩ := by decide

/-! ## Claim theorems -/

/-- C1: `calculate_network_address` returns the address whose octet `i` is
`A[i] & M[i]`; equivalently each result octet AND-ed with the inverted mask
octet is zero, and AND-ed with the mask octet it equals `A[i] & M[i]`. -/
theorem network_address_octets_and (A M : Ipv4Addr) :
    calculate_network_address A M =
      ⟨A.o0 &&& M.o0, A.o1 &&& M.o1, A.o2 &&& M.o2, A.o3 &&& M.o3⟩ ∧
    ((calculate_network_address A M).o0 &&& inv8 M.o0 = 0 ∧
     (calculate_network_address A M).o1 &&& inv8 M.o1 = 0 ∧
     (calculate_network_address A M).o2 &&& inv8 M.o2 = 0 ∧
     (calculate_network_address A M).o3 &&& inv8 M.o3 = 0) ∧
    ((calculate_network_address A M).o0 &&& M.o0 = A.o0 &&& M.o0 ∧
     (calculate_network_address A M).o1 &&& M.o1 = A.o1 &&& M.o1 ∧
     (calculate_network_address A M).o2 &&& M.o2 = A.o2 &&& M.o2 ∧
     (calculate_network_address A M).o3 &&& M.o3 = A.o3 &&& M.o3) :=
  ⟨rfl,
   ⟨octet_network_hostbits A.o0 M.o0, octet_network_hostbits A.o1 M.o1,
    octet_network_hostbits A.o2 M.o2, octet_network_hostbits A.o3 M.o3⟩,
   ⟨octet_network_netbits A.o0 M.o0, octet_network_netbits A.o1 M.o1,
    octet_network_netbits A.o2 M.o2, octet_network_netbits A.o3 M.o3⟩⟩

/-- C2: `calculate_broadcast_address` returns the address whose octet `i` is
`A[i] | (!M[i] & 0xff)`; equivalently each result octet AND-ed with the mask
octet equals `A[i] & M[i]`, and OR-ed with the mask octet it is all ones
(255 in every octet). -/
theorem broadcast_address_octets_or (A M : Ipv4Addr)
    (hA : A.Valid) (hM : M.Valid) :
    calculate_broadcast_address A M =
      ⟨A.o0 ||| inv8 M.o0, A.o1 ||| inv8 M.o1,
       A.o2 ||| inv8 M.o2, A.o3 ||| inv8 M.o3⟩ ∧
    ((calculate_broadcast_address A M).o0 &&& M.o0 = A.o0 &&& M.o0 ∧
     (calculate_broadcast_address A M).o1 &&& M.o1 = A.o1 &&& M.o1 ∧
     (calculate_broadcast_address A M).o2 &&& M.o2 = A.o2 &&& M.o2 ∧
     (calculate_broadcast_address A M).o3 &&& M.o3 = A.o3 &&& M.o3) ∧
    ((calculate_broadcast_address A M).o0 ||| M.o0 = 255 ∧
     (calculate_broadcast_address A M).o1 ||| M.o1 = 255 ∧
     (calculate_broadcast_address A M).o2 ||| M.o2 = 255 ∧
     (calculate_broadcast_address A M).o3 ||| M.o3 = 255) :=
  ⟨rfl,
   ⟨octet_broadcast_and A.o0 M.o0, octet_broadcast_and A.o1 M.o1,
    octet_broadcast_and A.o2 M.o2, octet_broadcast_and A.o3 M.o3⟩,
   ⟨octet_broadcast_or A.o0 M.o0 hA.1 hM.1,
    octet_broadcast_or A.o1 M.o1 hA.2.1 hM.2.1,
    octet_broadcast_or A.o2 M.o2 hA.2.2.1 hM.2.2.1,
    octet_broadcast_or A.o3 M.o3 hA.2.2.2 hM.2.2.2⟩⟩

/-- C2 witness: concrete evaluation at `192.168.1.10` with mask
`255.255.255.0`. -/
theorem broadcast_address_octets_or_witness :
    (calculate_broadcast_address ⟨192, 168, 1, 10⟩ ⟨255, 255, 255, 0⟩).o0 |||
      (255 : Nat) = 255 :=
  (broadcast_address_octets_or ⟨192, 168, 1, 10⟩ ⟨255, 255, 255, 0⟩
    (by decide) (by decide)).2.2.1

/-- C3: for every mask whose total 1-bit count `ones` is at least 1,
`calculate_subnet_count` returns `2 ^ (32 - ones)` (the `u32` wrap-around is
invisible there); in particular `255.255.255.0` gives 256 and
`255.255.255.252` gives 4. -/
theorem subnet_count_pow (M : Ipv4Addr) (h : 1 ≤ onesCount M) :
    calculate_subnet_count M = 2 ^ (32 - onesCount M) ∧
    calculate_subnet_count ⟨255, 255, 255, 0⟩ = 256 ∧
    calculate_subnet_count ⟨255, 255, 255, 252⟩ = 4 := by
  refine ⟨?_, by decide, by decide⟩
  unfold calculate_subnet_count
  exact Nat.mod_eq_of_lt (Nat.pow_lt_pow_right (by omega) (by omega))

/-- C3 witness: the mask `255.255.255.0` has 24 one-bits and subnet count
`2 ^ 8 = 256`. -/
theorem subnet_count_pow_witness :
    1 ≤ onesCount ⟨255, 255, 255, 0⟩ ∧
    calculate_subnet_count ⟨255, 255, 255, 0⟩ =
      2 ^ (32 - onesCount ⟨255, 255, 255, 0⟩) :=
  ⟨by decide, (subnet_count_pow ⟨255, 255, 255, 0⟩ (by decide)).1⟩

/-- C4: for every mask whose total 1-bit count lies between 1 and 31,
`calculate_host_count` returns `calculate_subnet_count - 2`; in particular
`255.255.255.0` gives 254 and `255.255.255.252` gives 2. -/
theorem host_count_sub_two (M : Ipv4Addr)
    (h1 : 1 ≤ onesCount M) (h2 : onesCount M ≤ 31) :
    calculate_host_count M = calculate_subnet_count M - 2 ∧
    calculate_host_count ⟨255, 255, 255, 0⟩ = 254 ∧
    calculate_host_count ⟨255, 255, 255, 252⟩ = 2 := by
  refine ⟨?_, by decide, by decide⟩
  unfold calculate_host_count calculate_subnet_count
  have hlo : 2 ≤ 2 ^ (32 - onesCount M) := by
    calc (2 : Nat) = 2 ^ 1 := by norm_num
    _ ≤ 2 ^ (32 - onesCount M) := Nat.pow_le_pow_right (by omega) (by omega)
  have hhi : 2 ^ (32 - onesCount M) < 2 ^ 32 :=
    Nat.pow_lt_pow_right (by omega) (by omega)
  have h32 : (2 : Nat) ^ 32 = 4294967296 := by norm_num
  omega

/-- C4 witness: the mask `255.255.255.252` has 30 one-bits, and its host
count is its subnet count minus 2. -/
theorem host_count_sub_two_witness :
    (1 ≤ onesCount ⟨255, 255, 255, 252⟩ ∧ onesCount ⟨255, 255, 255, 252⟩ ≤ 31) ∧
    calculate_host_count ⟨255, 255, 255, 252⟩ =
      calculate_subnet_count ⟨255, 255, 255, 252⟩ - 2 :=
  ⟨⟨by decide, by decide⟩,
   (host_count_sub_two ⟨255, 255, 255, 252⟩ (by decide) (by decide)).1⟩

/-- C5: `App::calculate_subnet` is atomic — if either buffer fails to parse
the whole state (in particular every previously computed result field) is
left unchanged, and if both parse all four result fields are updated
together. -/
theorem calculate_subnet_atomic (app : App) :
    ((parseIpv4 app.ip_input = none ∨ parseIpv4 app.subnet_input = none) →
      app.calculate_subnet = app) ∧
    (∀ ip subnet, parseIpv4 app.ip_input = some ip →
      parseIpv4 app.subnet_input = some subnet →
      app.calculate_subnet =
        { app with
          network_address := some (calculate_network_address ip subnet)
          broadcast_address := some (calculate_broadcast_address ip subnet)
          subnet_count := some (calculate_subnet_count subnet)
          host_count := some (calculate_host_count subnet) }) := by
  constructor
  · intro h
    unfold App.calculate_subnet
    rcases h1 : parseIpv4 app.ip_input with _ | ip <;>
      rcases h2 : parseIpv4 app.subnet_input with _ | subnet <;>
        simp_all
  · intro ip subnet h1 h2
    unfold App.calculate_subnet
    rw [h1, h2]

/-- C5 witness: with the malformed IP text `"192.168.1"` the recomputation
leaves a state with previously computed results completely unchanged. -/
theorem calculate_subnet_atomic_witness :
    App.calculate_subnet
      ⟨"192.168.1", "255.255.255.0", InputMode.NoTyping,
       some ⟨192, 168, 1, 0⟩, some ⟨192, 168, 1, 255⟩, some 256, some 254⟩ =
      ⟨"192.168.1", "255.255.255.0", InputMode.NoTyping,
       some ⟨192, 168, 1, 0⟩, some ⟨192, 168, 1, 255⟩, some 256, some 254⟩ :=
  (calculate_subnet_atomic
    ⟨"192.168.1", "255.255.255.0", InputMode.NoTyping,
     some ⟨192, 168, 1, 0⟩, some ⟨192, 168, 1, 255⟩, some 256, some 254⟩).1
    (Or.inl (by decide))

/-- C6: handling Enter invokes the recomputation and then sets the input
mode to `NoTyping`, whether or not the recomputation updated anything. -/
theorem enter_recomputes_then_idles (app : App) :
    handleKey app KeyCode.enter =
      (false, { app.calculate_subnet with input_mode := InputMode.NoTyping }) ∧
    (handleKey app KeyCode.enter).2.input_mode = InputMode.NoTyping :=
  ⟨rfl, rfl⟩

/-- C7: a character other than `q`/`i`/`s` is appended to the buffer
selected by the input mode and the other buffer is untouched; Backspace
drops the last character of the selected buffer; both are no-ops in
`NoTyping` mode, and Backspace is a no-op on an empty selected buffer. -/
theorem char_backspace_edit_selected_buffer (app : App) (c : Char)
    (hq : c ≠ 'q') (hi : c ≠ 'i') (hs : c ≠ 's') :
    (app.input_mode = InputMode.IP →
      (handleKey app (KeyCode.char c)).2.ip_input.data = app.ip_input.data ++ [c] ∧
      (handleKey app (KeyCode.char c)).2.subnet_input = app.subnet_input ∧
      (handleKey app KeyCode.backspace).2.ip_input.data = app.ip_input.data.dropLast ∧
      (handleKey app KeyCode.backspace).2.subnet_input = app.subnet_input) ∧
    (app.input_mode = InputMode.Subnet →
      (handleKey app (KeyCode.char c)).2.subnet_input.data = app.subnet_input.data ++ [c] ∧
      (handleKey app (KeyCode.char c)).2.ip_input = app.ip_input ∧
      (handleKey app KeyCode.backspace).2.subnet_input.data = app.subnet_input.data.dropLast ∧
      (handleKey app KeyCode.backspace).2.ip_input = app.ip_input) ∧
    (app.input_mode = InputMode.NoTyping →
      (handleKey app (KeyCode.char c)).2 = app ∧
      (handleKey app KeyCode.backspace).2 = app) ∧
    (app.ip_input = "" → app.input_mode = InputMode.IP →
      (handleKey app KeyCode.backspace).2 = app) ∧
    (app.subnet_input = "" → app.input_mode = InputMode.Subnet →
      (handleKey app KeyCode.backspace).2 = app) := by
  refine ⟨fun hm => ?_, fun hm => ?_, fun hm => ?_, fun he hm => ?_, fun he hm => ?_⟩
  · simp [handleKey, hq, hi, hs, hm, stringPop]
  · simp [handleKey, hq, hi, hs, hm, stringPop]
  · simp [handleKey, hq, hi, hs, hm]
  · obtain ⟨i1, i2, m, n, b, s, h⟩ := app
    subst he
    simp_all [handleKey, hq, hi, hs, stringPop]
  · obtain ⟨i1, i2, m, n, b, s, h⟩ := app
    subst he
    simp_all [handleKey, hq, hi, hs, stringPop]

/-- C7 witness: typing `2` in IP-editing mode appends it to the IP buffer
and leaves the subnet buffer alone; Backspace drops the last character. -/
theorem char_backspace_edit_selected_buffer_witness :
    (handleKey ⟨"19", "255", InputMode.IP, none, none, none, none⟩
        (KeyCode.char '2')).2.ip_input.data =
      (⟨"19", "255", InputMode.IP, none, none, none, none⟩ : App).ip_input.data
        ++ ['2'] ∧
    (handleKey ⟨"19", "255", InputMode.IP, none, none, none, none⟩
        (KeyCode.char '2')).2.subnet_input =
      (⟨"19", "255", InputMode.IP, none, none, none, none⟩ : App).subnet_input ∧
    (handleKey ⟨"19", "255", InputMode.IP, none, none, none, none⟩
        KeyCode.backspace).2.ip_input.data =
      (⟨"19", "255", InputMode.IP, none, none, none, none⟩ : App).ip_input.data.dropLast ∧
    (handleKey ⟨"19", "255", InputMode.IP, none, none, none, none⟩
        KeyCode.backspace).2.subnet_input =
      (⟨"19", "255", InputMode.IP, none, none, none, none⟩ : App).subnet_input :=
  (char_backspace_edit_selected_buffer
    ⟨"19", "255", InputMode.IP, none, none, none, none⟩ '2'
    (by decide) (by decide) (by decide)).1 rfl

/-- C8: recomputation is idempotent — it never touches the text buffers, so
invoking it twice yields the same state (hence identical result values) as
invoking it once. -/
theorem calculate_subnet_idempotent (app : App) :
    app.calculate_subnet.ip_input = app.ip_input ∧
    app.calculate_subnet.subnet_input = app.subnet_input ∧
    app.calculate_subnet.calculate_subnet = app.calculate_subnet := by
  unfold App.calculate_subnet
  rcases h1 : parseIpv4 app.ip_input with _ | ip <;>
    rcases h2 : parseIpv4 app.subnet_input with _ | subnet <;>
      simp [h1, h2]

/-- C9: AND with the all-ones mask returns the address itself, and AND with
the all-zero mask returns `0.0.0.0`. -/
theorem network_address_identity_masks (A : Ipv4Addr) (hA : A.Valid) :
    calculate_network_address A ⟨255, 255, 255, 255⟩ = A ∧
    calculate_network_address A ⟨0, 0, 0, 0⟩ = ⟨0, 0, 0, 0⟩ := by
  obtain ⟨a0, a1, a2, a3⟩ := A
  obtain ⟨h0, h1, h2, h3⟩ := hA
  constructor
  · simp only [calculate_network_address, Ipv4Addr.mk.injEq]
    exact ⟨octet_and_255 a0 h0, octet_and_255 a1 h1,
           octet_and_255 a2 h2, octet_and_255 a3 h3⟩
  · simp only [calculate_network_address, Ipv4Addr.mk.injEq]
    exact ⟨Nat.and_zero a0, Nat.and_zero a1, Nat.and_zero a2, Nat.and_zero a3⟩

/-- C9 witness: concrete evaluation at `192.168.1.10`. -/
theorem network_address_identity_masks_witness :
    calculate_network_address ⟨192, 168, 1, 10⟩ ⟨255, 255, 255, 255⟩ =
      ⟨192, 168, 1, 10⟩ :=
  (network_address_identity_masks ⟨192, 168, 1, 10⟩ (by decide)).1

/-- C10: octet-wise, the network address is below the input address, which
is below the broadcast address. -/
theorem address_between_network_broadcast (A M : Ipv4Addr) :
    ((calculate_network_address A M).o0 ≤ A.o0 ∧
      A.o0 ≤ (calculate_broadcast_address A M).o0) ∧
    ((calculate_network_address A M).o1 ≤ A.o1 ∧
      A.o1 ≤ (calculate_broadcast_address A M).o1) ∧
    ((calculate_network_address A M).o2 ≤ A.o2 ∧
      A.o2 ≤ (calculate_broadcast_address A M).o2) ∧
    ((calculate_network_address A M).o3 ≤ A.o3 ∧
      A.o3 ≤ (calculate_broadcast_address A M).o3) :=
  ⟨⟨Nat.and_le_left, le_lor_left A.o0 (inv8 M.o0)⟩,
   ⟨Nat.and_le_left, le_lor_left A.o1 (inv8 M.o1)⟩,
   ⟨Nat.and_le_left, le_lor_left A.o2 (inv8 M.o2)⟩,
   ⟨Nat.and_le_left, le_lor_left A.o3 (inv8 M.o3)⟩⟩

end SubnetCalc
